import Mathlib

/-!
Shallow embedding of the agent backend of the ai-customer-service-chat
repository (server agent module): the retry/backoff helper
`retryWithBackoff`, the inventory lookup tool handler `itemLookupTool`,
the langgraph wiring (`shouldContinue`, the agent/tools cycle with
`recursionLimit 15`), and the outer error mapping of `callAgent`.
Effectful provider calls (MongoDB, embeddings, the chat model) are
modelled as `Except`-valued oracles; thrown JS exceptions are `.error`,
and JS `Error` objects carrying an optional numeric `status` field are
the `ProviderError` structure.
-/

namespace AIChat

/-- A JS `Error` as the code inspects it: an optional numeric `status`
field (`"status" in error`), and a `message`. -/
structure ProviderError where
  status : Option Nat
  msg : String
deriving DecidableEq, Repr

/-- The retry condition of `retryWithBackoff`:
`error instanceof Error && "status" in error && error.status === 429`. -/
def isRateLimit (e : ProviderError) : Bool := e.status == some 429

/-- Observable outcome of one run of `retryWithBackoff`: the value
returned or error thrown, the backoff delays awaited (in order), and how
many times `fn` was invoked. -/
structure RetryTrace (α : Type) where
  result : Except ProviderError α
  delays : List Nat
  calls : Nat

/-- The `for (let attempt = 1; attempt <= maxRetries; attempt++)` loop of
`retryWithBackoff`, entered at loop counter `attempt`.  `fn a` is the
outcome of the a-th invocation of the wrapped thunk.  `rem` is the number
of loop iterations still permitted by the guard `attempt <= maxRetries`,
i.e. `rem = maxRetries + 1 - attempt`: the loop guard fails (falling
through to `throw new Error("Max retries exceeded")`) exactly when
`rem = 0`.  A 429 failure with `attempt < maxRetries` waits
`min(1000 * 2^attempt, 30000)` ms and continues; any other failure is
rethrown. -/
def retryAux {α : Type} (fn : Nat → Except ProviderError α) (maxRetries : Nat) :
    Nat → Nat → RetryTrace α
  | _attempt, 0 => ⟨.error ⟨none, "Max retries exceeded"⟩, [], 0⟩
  | attempt, rem + 1 =>
    match fn attempt with
    | .ok v => ⟨.ok v, [], 1⟩
    | .error e =>
      if isRateLimit e = true ∧ attempt < maxRetries then
        let t := retryAux fn maxRetries (attempt + 1) rem
        ⟨t.result, min (1000 * 2 ^ attempt) 30000 :: t.delays, t.calls + 1⟩
      else
        ⟨.error e, [], 1⟩

/-- `retryWithBackoff(fn, maxRetries = 3)`: run the retry loop from
attempt 1, with `maxRetries` iterations permitted by the loop guard. -/
def retryWithBackoff {α : Type} (fn : Nat → Except ProviderError α)
    (maxRetries : Nat) : RetryTrace α :=
  retryAux fn maxRetries 1 maxRetries

/-- A thunk that fails with a rate-limit (status 429) error on every
invocation. -/
def alwaysRateLimited : Nat → Except ProviderError Nat :=
  fun _ => .error ⟨some 429, "Too Many Requests"⟩

/-- The backoff delays recorded while attempts `a, a+1, ..., j-1` all fail
with rate-limit errors: before attempt `i+1` the loop waits
`min(1000 * 2^i, 30000)` ms. -/
def delaysFor (a j : Nat) : List Nat :=
  (List.range' a (j - a)).map (fun i => min (1000 * 2 ^ i) 30000)

/-- An inventory document with the four string fields the fallback text
query regexes over.  `categories` is matched by a single `$regex` clause in
the code, so it is modelled as one string field. -/
structure Item where
  item_name : String
  item_description : String
  categories : String
  embedding_text : String
deriving DecidableEq, Repr

/-- The characters of `s` lowercased (as `String.toLower` does
characterwise). -/
def lowerChars (s : String) : List Char := s.toList.map Char.toLower

/-- MongoDB `$regex` with a literal pattern and option `"i"`:
case-insensitive substring containment. -/
def strContainsCI (s pat : String) : Bool :=
  decide (lowerChars pat <:+: lowerChars s)

/-- The `$or` filter of the fallback text query: the document matches when
any of `item_name`, `item_description`, `categories`, `embedding_text`
contains the query case-insensitively. -/
def matchesTextQuery (query : String) (it : Item) : Bool :=
  strContainsCI it.item_name query || strContainsCI it.item_description query
    || strContainsCI it.categories query || strContainsCI it.embedding_text query

/-- `collection.find({$or: [...]}).limit(n).toArray()`: the documents
matching the `$or` filter, limited to the first `n`. -/
def textSearch (items : List Item) (query : String) (n : Nat) : List Item :=
  (items.filter (matchesTextQuery query)).take n

/-- The fallback match as the specification words it: a case-insensitive
substring match across item name, description, and category fields only
(to be compared with `matchesTextQuery`, which the code implements). -/
def specTextMatch (query : String) (it : Item) : Bool :=
  strContainsCI it.item_name query || strContainsCI it.item_description query
    || strContainsCI it.categories query

/-- The fallback search as the specification words it, over
`specTextMatch`. -/
def specTextSearch (items : List Item) (query : String) (n : Nat) : List Item :=
  (items.filter (specTextMatch query)).take n

/-- The `searchType` tag of a lookup result. -/
inductive SearchType where
  | vector
  | text
deriving DecidableEq, Repr

/-- The `results` field of the serialized tool result: vector search yields
`[document, score]` pairs, text search yields plain documents, and the
error payloads carry no `results` field. -/
inductive JsonResults where
  | scored (rs : List (Item × Int))
  | plain (rs : List Item)
  | absent
deriving DecidableEq, Repr

/-- Length of the `results` field (0 when absent). -/
def JsonResults.len : JsonResults → Nat
  | .scored rs => rs.length
  | .plain rs => rs.length
  | .absent => 0

/-- The JSON object `itemLookupTool` serializes and returns: each field is
present (`some`) exactly when the corresponding branch of the code writes
it. -/
structure ToolResult where
  error : Option String
  message : Option String
  details : Option String
  results : JsonResults
  searchType : Option SearchType
  query : Option String
  count : Option Nat
deriving DecidableEq, Repr

/-- The oracles behind the tool handler's effectful calls.  `items` is the
backing `items` collection; `countFail`, `sampleFail` and `textFail` model
`countDocuments`, the sample `find` and the fallback `find` throwing;
`vectorSearch` models `similaritySearchWithScore` (scores are opaque
pass-through data, modelled as `Int`). -/
structure InventoryOps where
  items : List Item
  countFail : Option ProviderError
  sampleFail : Option ProviderError
  vectorSearch : String → Nat → Except ProviderError (List (Item × Int))
  textFail : Option ProviderError
deriving Inhabited

/-- An awaited provider call: throws the recorded error, else yields `v`. -/
def orFail {β : Type} (fail : Option ProviderError) (v : β) :
    Except ProviderError β :=
  match fail with
  | some e => .error e
  | none => .ok v

/-- The JSON returned when `countDocuments` yields 0 (spelling kept from
the source). -/
def emptyInventoryResult : ToolResult where
  error := some "No items found in inventory"
  message := some "The inventory database appears to ne empty"
  details := none
  results := .absent
  searchType := none
  query := none
  count := some 0

/-- The body of the `try` block of `itemLookupTool`: count the collection,
return the empty-inventory payload on 0, fetch sample docs, run the vector
search, fall back to the text search exactly when it returned no results,
and serialize the outcome.  A thrown provider error is the `.error` case. -/
def lookupBody (ops : InventoryOps) (query : String) (n : Nat) :
    Except ProviderError ToolResult :=
  match orFail ops.countFail ops.items.length with
  | .error e => .error e
  | .ok totalCount =>
    if totalCount = 0 then
      .ok emptyInventoryResult
    else
      match orFail ops.sampleFail (ops.items.take 3) with
      | .error e => .error e
      | .ok _sampleDocs =>
        match ops.vectorSearch query n with
        | .error e => .error e
        | .ok result =>
          if result.length = 0 then
            match orFail ops.textFail (textSearch ops.items query n) with
            | .error e => .error e
            | .ok textResult =>
              .ok { error := none, message := none, details := none
                    results := .plain textResult, searchType := some .text
                    query := some query, count := some textResult.length }
          else
            .ok { error := none, message := none, details := none
                  results := .scored result, searchType := some .vector
                  query := some query, count := some result.length }

/-- The full tool handler: the `catch` converts any thrown provider error
into the structured error payload (spelling kept from the source). -/
def itemLookupTool (ops : InventoryOps) (query : String) (n : Nat) :
    ToolResult :=
  match lookupBody ops query n with
  | .ok r => r
  | .error e =>
      { error := some "Failde to seach inventory", message := none
        details := some e.msg, results := .absent, searchType := none
        query := some query, count := none }

/-- A tool-call request carried on an AI message: the `item_lookup`
arguments `query` and `n`. -/
structure ToolCall where
  query : String
  n : Nat
deriving DecidableEq, Repr

/-- A message of the graph state: `HumanMessage`, `AIMessage` (with its
`tool_calls`), or a tool-result message produced by the tool node. -/
inductive Msg where
  | human (content : String)
  | ai (content : String) (tool_calls : List ToolCall)
  | toolMsg (result : ToolResult)
deriving DecidableEq, Repr

/-- The `messages` reducer of `GraphState`: `(x, y) => x.concat(y)`. -/
def messagesReducer (x y : List Msg) : List Msg := x ++ y

/-- `shouldContinue`: route to `"tools"` when the last message has a
non-empty (truthy) `tool_calls` list, else `"__end__"`.  A last message
without a `tool_calls` property gives `undefined?.length`, which is falsy. -/
def shouldContinue (messages : List Msg) : String :=
  match messages.getLast? with
  | some (.ai _ tcs) => if tcs.length ≠ 0 then "tools" else "__end__"
  | _ => "__end__"

/-- One execution of the `agent` node: `callModel` returns
`{ messages: [result] }`, folded into the state by the reducer.  `model`
is the Language Model Provider oracle (a successful `model.invoke`). -/
def agentStep (model : List Msg → Msg) (msgs : List Msg) : List Msg :=
  messagesReducer msgs [model msgs]

/-- The messages produced by the `tools` node: one tool-result message per
tool call of the last AI message, each running `itemLookupTool`. -/
def toolNodeOutputs (ops : InventoryOps) (messages : List Msg) : List Msg :=
  match messages.getLast? with
  | some (.ai _ tcs) => tcs.map (fun tc => .toolMsg (itemLookupTool ops tc.query tc.n))
  | _ => []

/-- One execution of the `tools` node, folded into the state by the
reducer. -/
def toolsStep (ops : InventoryOps) (msgs : List Msg) : List Msg :=
  messagesReducer msgs (toolNodeOutputs ops msgs)

/-- The failure raised when the graph hits `recursionLimit`
(langgraph's `GraphRecursionError`). -/
inductive AgentError where
  | loopExceeded
deriving DecidableEq, Repr

/-- The two nodes of the compiled workflow. -/
inductive NodeTag where
  | agent
  | tools
deriving DecidableEq, Repr

/-- The compiled workflow's executor: from the current node, run it and
follow the wiring of the source (`__start__ → agent`,
`agent → shouldContinue → tools | __end__`, `tools → agent`), raising
`loopExceeded` when the permitted number of super-steps (`fuel`) runs out.
Returns the outcome together with the number of super-steps executed. -/
def runGraphAux (model : List Msg → Msg) (ops : InventoryOps) :
    Nat → NodeTag → List Msg → Except AgentError (List Msg) × Nat
  | 0, _, _ => (.error .loopExceeded, 0)
  | fuel + 1, .agent, msgs =>
    let msgs2 := agentStep model msgs
    if shouldContinue msgs2 = "tools" then
      let t := runGraphAux model ops fuel .tools msgs2
      (t.1, t.2 + 1)
    else
      (.ok msgs2, 1)
  | fuel + 1, .tools, msgs =>
    let t := runGraphAux model ops fuel .agent (toolsStep ops msgs)
    (t.1, t.2 + 1)

/-- `app.invoke(..., { recursionLimit })`: execute from `__start__ → agent`
with the given super-step budget. -/
def runGraph (model : List Msg → Msg) (ops : InventoryOps)
    (recursionLimit : Nat) (msgs : List Msg) :
    Except AgentError (List Msg) × Nat :=
  runGraphAux model ops recursionLimit .agent msgs

/-- The invocation made by `callAgent`: the initial state holds the one
`HumanMessage`, and `recursionLimit` is 15. -/
def callAgentInvoke (model : List Msg → Msg) (ops : InventoryOps)
    (message : String) : Except AgentError (List Msg) × Nat :=
  runGraph model ops 15 [.human message]

/-- The error `callAgent` rethrows to its caller. -/
inductive TurnError where
  | tempUnavailable (msg : String)
  | authConfig (msg : String)
  | agentFailed (msg : String)
deriving DecidableEq, Repr

/-- The outer `catch` of `callAgent`: a status-429 error becomes the
user-visible temporarily-unavailable message, a status-401 error the
configuration-error message, anything else a generic wrapper. -/
def mapCallAgentError (e : ProviderError) : TurnError :=
  if e.status = some 429 then
    .tempUnavailable
      "Service temporarily unavailable due to rate limits. Please try again later."
  else if e.status = some 401 then
    .authConfig "Authentication failed. Please check your API configuration."
  else
    .agentFailed ("Agent failed: " ++ e.msg)

/-- A turn whose model call fails: `callModel` wraps `model.invoke` in
`retryWithBackoff` (maxRetries 3), the resulting error propagates out of
`app.invoke`, and the outer catch of `callAgent` maps it. -/
def modelTurn {α : Type} (fn : Nat → Except ProviderError α) :
    Except TurnError α :=
  match (retryWithBackoff fn 3).result with
  | .ok v => .ok v
  | .error e => .error (mapCallAgentError e)

/-- A thunk that fails with rate limits on attempts 1 and 2 and succeeds on
attempt 3. -/
def succeedsOnThird (a : Nat) : Except ProviderError Nat :=
  if a < 3 then .error ⟨some 429, "Too Many Requests"⟩ else .ok 7

/-- A thunk that fails with an authentication (status 401) error on every
invocation. -/
def alwaysAuthFailed : Nat → Except ProviderError Nat :=
  fun _ => .error ⟨some 401, "Unauthorized"⟩

/-- A sample inventory document matched by ordinary queries. -/
def sofaItem : Item where
  item_name := "Azure Sofa"
  item_description := "A comfy blue sofa"
  categories := "sofas"
  embedding_text := "blue sofa couch furniture"

/-- A document whose query terms occur only in `embedding_text`. -/
def hiddenItem : Item where
  item_name := "Item 42"
  item_description := "no details"
  categories := "misc"
  embedding_text := "teal loveseat"

/-- A vector store whose similarity search succeeds with zero matches. -/
def noVectorResults : String → Nat → Except ProviderError (List (Item × Int)) :=
  fun _ _ => .ok []

/-- Concrete healthy ops over a two-document inventory whose vector search
finds nothing. -/
def demoOps : InventoryOps where
  items := [sofaItem, hiddenItem]
  countFail := none
  sampleFail := none
  vectorSearch := noVectorResults
  textFail := none

/-- A model oracle that always requests one `item_lookup` tool call. -/
def modelAlwaysTool : List Msg → Msg :=
  fun _ => .ai "" [⟨"blue sofas", 10⟩]

/-- A model oracle that immediately answers without tool calls. -/
def modelAnswers : List Msg → Msg :=
  fun _ => .ai "Hello! How can I help you?" []

lemma delaysFor_self (a : Nat) : delaysFor a a = [] := by
  simp [delaysFor]

lemma delaysFor_cons (a j : Nat) (h : a < j) :
    delaysFor a j = min (1000 * 2 ^ a) 30000 :: delaysFor (a + 1) j := by
  unfold delaysFor
  rw [show j - a = (j - (a + 1)) + 1 by omega, List.range'_succ]
  simp

/-- Master run lemma: if attempts `a .. j-1` all fail with rate-limit
errors while still below `maxRetries`, the loop reaches attempt `j`, having
waited the delays `delaysFor a j`; attempt `j` then either succeeds, or
fails and is not retried. -/
lemma retryAux_run {α : Type} (fn : Nat → Except ProviderError α) (m : Nat) :
    ∀ r a j, a ≤ j → j < a + r →
    (∀ i, a ≤ i → i < j →
      (∃ ei, fn i = .error ei ∧ isRateLimit ei = true) ∧ i < m) →
    (∀ v, fn j = .ok v →
        retryAux fn m a r = ⟨.ok v, delaysFor a j, j - a + 1⟩)
  ∧ (∀ e, fn j = .error e → ¬(isRateLimit e = true ∧ j < m) →
        retryAux fn m a r = ⟨.error e, delaysFor a j, j - a + 1⟩) := by
  intro r
  induction r with
  | zero => intro a j haj hlt _; omega
  | succ r ih =>
    intro a j haj hlt hfail
    rcases Nat.eq_or_lt_of_le haj with heq | hal
    · subst heq
      constructor
      · intro v hv
        simp [retryAux, hv, delaysFor_self]
      · intro e he hcond
        simp [retryAux, he, if_neg hcond, delaysFor_self]
    · obtain ⟨⟨ea, hea, hrate⟩, ham⟩ := hfail a le_rfl hal
      have hc : isRateLimit ea = true ∧ a < m := ⟨hrate, ham⟩
      have hrec := ih (a + 1) j hal (by omega) (fun i h1 h2 => hfail i (by omega) h2)
      constructor
      · intro v hv
        have hr := hrec.1 v hv
        simp only [retryAux, hea, if_pos hc, hr]
        rw [delaysFor_cons a j hal]
        simp only [RetryTrace.mk.injEq]
        exact ⟨trivial, trivial, by omega⟩
      · intro e he hcond
        have hr := hrec.2 e he hcond
        simp only [retryAux, hea, if_pos hc, hr]
        rw [delaysFor_cons a j hal]
        simp only [RetryTrace.mk.injEq]
        exact ⟨trivial, trivial, by omega⟩

/-- The wrapped thunk is invoked at most `rem` more times. -/
lemma retryAux_calls_le {α : Type} (fn : Nat → Except ProviderError α)
    (m : Nat) : ∀ r a, (retryAux fn m a r).calls ≤ r := by
  intro r
  induction r with
  | zero => intro a; simp [retryAux]
  | succ r ih =>
    intro a
    cases hfa : fn a with
    | ok v => simp [retryAux, hfa]
    | error e =>
      by_cases hc : isRateLimit e = true ∧ a < m
      · simp only [retryAux, hfa, if_pos hc]
        exact Nat.succ_le_succ (ih (a + 1))
      · simp [retryAux, hfa, if_neg hc]

/-- Along the real call chain (`rem = maxRetries + 1 - attempt`), the trace
result always originates from some invocation of the thunk: the
fall-through `"Max retries exceeded"` branch is never the source. -/
lemma retryAux_result_from {α : Type} (fn : Nat → Except ProviderError α)
    (m : Nat) :
    ∀ r a, 1 ≤ r → r = m + 1 - a →
    ∃ j, a ≤ j ∧ j ≤ m ∧
      ((∃ v, fn j = .ok v ∧ (retryAux fn m a r).result = .ok v)
     ∨ (∃ e, fn j = .error e ∧ (retryAux fn m a r).result = .error e)) := by
  intro r
  induction r with
  | zero => intro a h _; omega
  | succ r ih =>
    intro a h1 h2
    cases hfa : fn a with
    | ok v =>
      exact ⟨a, le_rfl, by omega, .inl ⟨v, hfa, by simp [retryAux, hfa]⟩⟩
    | error e =>
      by_cases hc : isRateLimit e = true ∧ a < m
      · obtain ⟨j, hj1, hj2, hj3⟩ := ih (a + 1) (by omega) (by omega)
        refine ⟨j, by omega, hj2, ?_⟩
        simpa only [retryAux, hfa, if_pos hc] using hj3
      · exact ⟨a, le_rfl, by omega,
          .inr ⟨e, hfa, by simp [retryAux, hfa, if_neg hc]⟩⟩

lemma lookupBody_empty (ops : InventoryOps) (query : String) (n : Nat)
    (hc : ops.countFail = none) (he : ops.items = []) :
    lookupBody ops query n = .ok emptyInventoryResult := by
  simp [lookupBody, orFail, hc, he]

lemma lookupBody_text (ops : InventoryOps) (query : String) (n : Nat)
    (hc : ops.countFail = none) (hs : ops.sampleFail = none)
    (ht : ops.textFail = none) (hne : ops.items ≠ [])
    (hv : ops.vectorSearch query n = .ok []) :
    lookupBody ops query n =
      .ok { error := none, message := none, details := none
            results := .plain (textSearch ops.items query n)
            searchType := some .text, query := some query
            count := some (textSearch ops.items query n).length } := by
  have hlen : ops.items.length ≠ 0 := by
    simpa [List.length_eq_zero] using hne
  simp [lookupBody, orFail, hc, hs, ht, hv, hlen]

lemma lookupBody_vector (ops : InventoryOps) (query : String) (n : Nat)
    (hc : ops.countFail = none) (hs : ops.sampleFail = none)
    (hne : ops.items ≠ []) (rs : List (Item × Int))
    (hv : ops.vectorSearch query n = .ok rs) (hrs : rs ≠ []) :
    lookupBody ops query n =
      .ok { error := none, message := none, details := none
            results := .scored rs, searchType := some .vector
            query := some query, count := some rs.length } := by
  have hlen : ops.items.length ≠ 0 := by
    simpa [List.length_eq_zero] using hne
  have hrslen : rs.length ≠ 0 := by
    simpa [List.length_eq_zero] using hrs
  simp [lookupBody, orFail, hc, hs, hv, hlen, hrslen]

/-- With a model that always requests tool calls, every super-step leads to
another, so the executor spends its whole budget and raises the recursion
failure. -/
lemma runGraphAux_always_tools (model : List Msg → Msg) (ops : InventoryOps)
    (h : ∀ ms, ∃ c tcs, model ms = .ai c tcs ∧ tcs ≠ []) :
    ∀ fuel tag msgs,
      runGraphAux model ops fuel tag msgs = (.error .loopExceeded, fuel) := by
  intro fuel
  induction fuel with
  | zero => intro tag msgs; cases tag <;> simp [runGraphAux]
  | succ fuel ih =>
    intro tag msgs
    cases tag with
    | agent =>
      obtain ⟨c, tcs, hm, htcs⟩ := h msgs
      have hlen : tcs.length ≠ 0 := by
        simpa [List.length_eq_zero] using htcs
      have hsc : shouldContinue (agentStep model msgs) = "tools" := by
        simp [agentStep, messagesReducer, shouldContinue, hm, hlen]
      simp [runGraphAux, hsc, ih]
    | tools =>
      simp [runGraphAux, ih]

/-- The executor never runs more super-steps than its budget. -/
lemma runGraphAux_steps_le (model : List Msg → Msg) (ops : InventoryOps) :
    ∀ fuel tag msgs, (runGraphAux model ops fuel tag msgs).2 ≤ fuel := by
  intro fuel
  induction fuel with
  | zero => intro tag msgs; cases tag <;> simp [runGraphAux]
  | succ fuel ih =>
    intro tag msgs
    cases tag with
    | agent =>
      by_cases hsc : shouldContinue (agentStep model msgs) = "tools"
      · simp only [runGraphAux, if_pos hsc]
        exact Nat.succ_le_succ (ih .tools _)
      · simp [runGraphAux, if_neg hsc]
    | tools =>
      simp only [runGraphAux]
      exact Nat.succ_le_succ (ih .agent _)

/-- Whatever the executor returns extends the messages it started from:
state updates only append. -/
lemma runGraphAux_extends (model : List Msg → Msg) (ops : InventoryOps) :
    ∀ fuel tag msgs r, (runGraphAux model ops fuel tag msgs).1 = .ok r →
      ∃ t, r = msgs ++ t := by
  intro fuel
  induction fuel with
  | zero => intro tag msgs r h; cases tag <;> simp [runGraphAux] at h
  | succ fuel ih =>
    intro tag msgs r h
    cases tag with
    | agent =>
      by_cases hsc : shouldContinue (agentStep model msgs) = "tools"
      · simp only [runGraphAux, if_pos hsc] at h
        obtain ⟨t, ht⟩ := ih .tools (agentStep model msgs) r h
        exact ⟨[model msgs] ++ t, by
          simpa [agentStep, messagesReducer, List.append_assoc] using ht⟩
      · simp only [runGraphAux, if_neg hsc, Except.ok.injEq] at h
        exact ⟨[model msgs], by simp [← h, agentStep, messagesReducer]⟩
    | tools =>
      simp only [runGraphAux] at h
      obtain ⟨t, ht⟩ := ih .agent (toolsStep ops msgs) r h
      exact ⟨toolNodeOutputs ops msgs ++ t, by
        simpa [toolsStep, messagesReducer, List.append_assoc] using ht⟩

/-- C1: for every non-empty query over providers that do not throw,
`itemLookupTool` returns a result whose `searchType` is `vector` or `text`
and whose `count` equals the length of its `results`; except when the
backing collection is empty, in which case it returns the error payload
with count 0, independently of the search provider (no search attempted). -/
theorem lookup_result_shape (ops : InventoryOps) (query : String) (n : Nat)
    (hq : query ≠ "")
    (hc : ops.countFail = none) (hs : ops.sampleFail = none)
    (ht : ops.textFail = none)
    (hv : ∃ rs, ops.vectorSearch query n = .ok rs) :
    (ops.items = [] →
       itemLookupTool ops query n = emptyInventoryResult
     ∧ emptyInventoryResult.error.isSome = true
     ∧ emptyInventoryResult.count = some 0
     ∧ ∀ vs vs2, itemLookupTool { ops with vectorSearch := vs } query n
           = itemLookupTool { ops with vectorSearch := vs2 } query n)
  ∧ (ops.items ≠ [] →
       ((itemLookupTool ops query n).searchType = some .vector
      ∨ (itemLookupTool ops query n).searchType = some .text)
     ∧ (itemLookupTool ops query n).count
         = some (itemLookupTool ops query n).results.len) := by
  constructor
  · intro he
    have hx : ∀ vs, itemLookupTool { ops with vectorSearch := vs } query n
        = emptyInventoryResult := by
      intro vs
      simp [itemLookupTool,
        lookupBody_empty { ops with vectorSearch := vs } query n hc he]
    refine ⟨by simp [itemLookupTool, lookupBody_empty ops query n hc he],
      rfl, rfl, ?_⟩
    intro vs vs2
    rw [hx vs, hx vs2]
  · intro hne
    obtain ⟨rs, hvr⟩ := hv
    by_cases hrs : rs = []
    · subst hrs
      have hb := lookupBody_text ops query n hc hs ht hne hvr
      refine ⟨.inr ?_, ?_⟩ <;> simp [itemLookupTool, hb, JsonResults.len]
    · have hb := lookupBody_vector ops query n hc hs hne rs hvr hrs
      refine ⟨.inl ?_, ?_⟩ <;> simp [itemLookupTool, hb, JsonResults.len]

/-- C1 witness: on the concrete two-document inventory with a zero-match
vector search and query `"sofa"`, the hypotheses hold and the shape
property is obtained from the theorem. -/
theorem lookup_result_shape_witness :
    ((itemLookupTool demoOps "sofa" 10).searchType = some .vector
   ∨ (itemLookupTool demoOps "sofa" 10).searchType = some .text)
  ∧ (itemLookupTool demoOps "sofa" 10).count
      = some (itemLookupTool demoOps "sofa" 10).results.len :=
  (lookup_result_shape demoOps "sofa" 10 (by decide) rfl rfl rfl
    ⟨[], rfl⟩).2 (by decide)

/-- C2 counterexample: the claim describes the fallback as a
case-insensitive substring match across item name, description and
category fields, but the code also regexes `embedding_text`; the document
`hiddenItem` holds the query `"teal"` only in `embedding_text`, so the
code's fallback returns it while the claim's three-field match returns
nothing. -/
theorem lookup_fallback_fields_counterexample :
    (itemLookupTool demoOps "teal" 10).searchType = some .text
  ∧ (itemLookupTool demoOps "teal" 10).results = .plain [hiddenItem]
  ∧ specTextSearch demoOps.items "teal" 10 = []
  ∧ matchesTextQuery "teal" hiddenItem = true
  ∧ specTextMatch "teal" hiddenItem = false :=
  ⟨by decide, by decide, by decide, by decide, by decide⟩

/-- C2 (amended): the fallback to text search happens exactly when the
similarity search yields zero matches, and is a case-insensitive substring
match across the item name, description, category and `embedding_text`
fields limited to `n` results marked `text`; one or more vector matches
are returned directly, un-re-ranked, marked `vector`. -/
theorem lookup_fallback_behavior (ops : InventoryOps) (query : String)
    (n : Nat) (hc : ops.countFail = none) (hs : ops.sampleFail = none)
    (ht : ops.textFail = none) (hne : ops.items ≠ []) :
    (ops.vectorSearch query n = .ok [] →
       itemLookupTool ops query n =
         { error := none, message := none, details := none
           results := .plain (textSearch ops.items query n)
           searchType := some .text, query := some query
           count := some (textSearch ops.items query n).length })
  ∧ (∀ rs, ops.vectorSearch query n = .ok rs → rs ≠ [] →
       itemLookupTool ops query n =
         { error := none, message := none, details := none
           results := .scored rs, searchType := some .vector
           query := some query, count := some rs.length })
  ∧ textSearch ops.items query n
      = (ops.items.filter (matchesTextQuery query)).take n
  ∧ (textSearch ops.items query n).length ≤ n
  ∧ (∀ it, it ∈ textSearch ops.items query n →
       matchesTextQuery query it = true) := by
  refine ⟨?_, ?_, rfl, ?_, ?_⟩
  · intro hv
    simp [itemLookupTool, lookupBody_text ops query n hc hs ht hne hv]
  · intro rs hv hrs
    simp [itemLookupTool, lookupBody_vector ops query n hc hs hne rs hv hrs]
  · calc (textSearch ops.items query n).length
        ≤ ((ops.items.filter (matchesTextQuery query)).take n).length := le_rfl
      _ ≤ n := List.length_take_le n _
  · intro it hit
    exact List.of_mem_filter (List.take_subset n _ hit)

/-- C2 witness: on the concrete inventory, vector search yields zero
matches for `"sofa"` and the fallback text result is obtained from the
theorem. -/
theorem lookup_fallback_behavior_witness :
    itemLookupTool demoOps "sofa" 10 =
      { error := none, message := none, details := none
        results := .plain (textSearch demoOps.items "sofa" 10)
        searchType := some .text, query := some "sofa"
        count := some (textSearch demoOps.items "sofa" 10).length } :=
  (lookup_fallback_behavior demoOps "sofa" 10 rfl rfl rfl (by decide)).1 rfl

/-- C3 counterexample: with every attempt rate-limited and maxAttempts 3,
the delay waited before attempt 2 is 2000 ms, not
`min(1000 * 2^2, 30000) = 4000` ms as the claim's formula states: the code
computes the exponent from the attempt that failed, not the upcoming one. -/
theorem backoff_formula_counterexample :
    (retryWithBackoff alwaysRateLimited 3).delays = [2000, 4000]
  ∧ (retryWithBackoff alwaysRateLimited 3).delays.head? = some 2000
  ∧ (2000 : Nat) ≠ min (1000 * 2 ^ 2) 30000 :=
  ⟨rfl, rfl, by decide⟩

/-- C3 (amended): the backoff delay waited before attempt k (k ≥ 2) equals
`min(1000 * 2^(k-1), 30000)` ms, and when all three attempts fail with
rate-limit errors the total wait is 2000 + 4000 = 6000 ms, which is at
least 3000 ms and at most the 30000 ms cap. -/
theorem backoff_delays_amended {α : Type} (fn : Nat → Except ProviderError α)
    (h : ∀ a, 1 ≤ a → a ≤ 3 → ∃ e, fn a = .error e ∧ isRateLimit e = true) :
    (∀ k, 2 ≤ k → k ≤ 3 →
       (retryWithBackoff fn 3).delays.get? (k - 2)
         = some (min (1000 * 2 ^ (k - 1)) 30000))
  ∧ (retryWithBackoff fn 3).delays.sum = 6000
  ∧ 3000 ≤ (retryWithBackoff fn 3).delays.sum
  ∧ (retryWithBackoff fn 3).delays.sum ≤ 30000 := by
  obtain ⟨e3, he3, hr3⟩ := h 3 (by omega) (by omega)
  have hfail : ∀ i, 1 ≤ i → i < 3 →
      (∃ ei, fn i = .error ei ∧ isRateLimit ei = true) ∧ i < 3 :=
    fun i h1 h2 => ⟨h i h1 (by omega), h2⟩
  have hcond : ¬(isRateLimit e3 = true ∧ 3 < 3) :=
    fun hx => absurd hx.2 (by omega)
  have hrun := (retryAux_run fn 3 3 1 3 (by omega) (by omega) hfail).2 e3 he3 hcond
  have hd : (retryWithBackoff fn 3).delays = [2000, 4000] := by
    rw [retryWithBackoff, hrun]
    show delaysFor 1 3 = [2000, 4000]
    decide
  refine ⟨?_, by simp [hd], by simp [hd], by simp [hd]⟩
  intro k hk1 hk2
  interval_cases k <;> simp [hd]

/-- C3 witness: the amended delay facts at the concrete always-rate-limited
thunk. -/
theorem backoff_delays_amended_witness :
    (retryWithBackoff alwaysRateLimited 3).delays.sum = 6000
  ∧ 3000 ≤ (retryWithBackoff alwaysRateLimited 3).delays.sum :=
  And.intro
    (backoff_delays_amended alwaysRateLimited
      (fun a h1 h2 => ⟨⟨some 429, "Too Many Requests"⟩, rfl, rfl⟩)).2.1
    (backoff_delays_amended alwaysRateLimited
      (fun a h1 h2 => ⟨⟨some 429, "Too Many Requests"⟩, rfl, rfl⟩)).2.2.1

/-- C4 counterexample: after three rate-limited attempts the wrapper's
failure is the provider's own error object (status 429, message
`"Too Many Requests"`), not a distinct retries-exhausted wrapper: the only
candidate wrapper error in the code, `"Max retries exceeded"`, is a
different error and is not what is thrown. -/
theorem retries_exhausted_counterexample :
    (retryWithBackoff alwaysRateLimited 3).result
      = .error ⟨some 429, "Too Many Requests"⟩
  ∧ (⟨some 429, "Too Many Requests"⟩ : ProviderError)
      ≠ ⟨none, "Max retries exceeded"⟩ :=
  ⟨rfl, by decide⟩

/-- C4 (amended): after `maxAttempts` consecutive rate-limit failures the
wrapper fails by rethrowing the last underlying provider error itself
(no wrapper error is created around it). -/
theorem retries_exhausted_propagates_last_error {α : Type}
    (fn : Nat → Except ProviderError α) (m : Nat) (hm : 1 ≤ m)
    (h : ∀ a, 1 ≤ a → a ≤ m → ∃ e, fn a = .error e ∧ isRateLimit e = true) :
    ∃ e, fn m = .error e ∧ (retryWithBackoff fn m).result = .error e
      ∧ (retryWithBackoff fn m).calls = m := by
  obtain ⟨em, hem, hrm⟩ := h m hm le_rfl
  have hfail : ∀ i, 1 ≤ i → i < m →
      (∃ ei, fn i = .error ei ∧ isRateLimit ei = true) ∧ i < m :=
    fun i h1 h2 => ⟨h i h1 (by omega), h2⟩
  have hcond : ¬(isRateLimit em = true ∧ m < m) :=
    fun hx => absurd hx.2 (by omega)
  have hrun := (retryAux_run fn m m 1 m hm (by omega) hfail).2 em hem hcond
  refine ⟨em, hem, ?_, ?_⟩
  · simp [retryWithBackoff, hrun]
  · simp [retryWithBackoff, hrun]
    omega

/-- C4 witness: the amended propagation at the concrete always-rate-limited
thunk with maxAttempts 3. -/
theorem retries_exhausted_propagates_last_error_witness :
    ∃ e, alwaysRateLimited 3 = .error e
      ∧ (retryWithBackoff alwaysRateLimited 3).result = .error e
      ∧ (retryWithBackoff alwaysRateLimited 3).calls = 3 :=
  retries_exhausted_propagates_last_error alwaysRateLimited 3 (by omega)
    (fun a h1 h2 => ⟨⟨some 429, "Too Many Requests"⟩, rfl, rfl⟩)

/-- C5: an attempt is retried only when it failed with a rate-limit
(status 429) error; any other failure propagates immediately on its first
occurrence; the operation is invoked at most `maxAttempts` times; and if
any attempt up to the last succeeds its value is returned. -/
theorem retry_policy {α : Type} (fn : Nat → Except ProviderError α)
    (m : Nat) :
    (retryWithBackoff fn m).calls ≤ m
  ∧ (∀ j e, 1 ≤ j → j ≤ m →
       (∀ i, 1 ≤ i → i < j → ∃ ei, fn i = .error ei ∧ isRateLimit ei = true) →
       fn j = .error e → isRateLimit e = false →
       (retryWithBackoff fn m).result = .error e
     ∧ (retryWithBackoff fn m).calls = j)
  ∧ (∀ j v, 1 ≤ j → j ≤ m →
       (∀ i, 1 ≤ i → i < j → ∃ ei, fn i = .error ei ∧ isRateLimit ei = true) →
       fn j = .ok v →
       (retryWithBackoff fn m).result = .ok v
     ∧ (retryWithBackoff fn m).calls = j) := by
  refine ⟨retryAux_calls_le fn m m 1, ?_, ?_⟩
  · intro j e hj1 hjm hprior hje hnr
    have hfail : ∀ i, 1 ≤ i → i < j →
        (∃ ei, fn i = .error ei ∧ isRateLimit ei = true) ∧ i < m :=
      fun i h1 h2 => ⟨hprior i h1 h2, by omega⟩
    have hcond : ¬(isRateLimit e = true ∧ j < m) := by simp [hnr]
    have hrun := (retryAux_run fn m m 1 j hj1 (by omega) hfail).2 e hje hcond
    refine ⟨by simp [retryWithBackoff, hrun], ?_⟩
    simp [retryWithBackoff, hrun]
    omega
  · intro j v hj1 hjm hprior hjv
    have hfail : ∀ i, 1 ≤ i → i < j →
        (∃ ei, fn i = .error ei ∧ isRateLimit ei = true) ∧ i < m :=
      fun i h1 h2 => ⟨hprior i h1 h2, by omega⟩
    have hrun := (retryAux_run fn m m 1 j hj1 (by omega) hfail).1 v hjv
    refine ⟨by simp [retryWithBackoff, hrun], ?_⟩
    simp [retryWithBackoff, hrun]
    omega

/-- C5 witness: a thunk rate-limited on attempts 1 and 2 and succeeding on
attempt 3 of 3 returns the success value, having been invoked exactly 3
times. -/
theorem retry_policy_witness :
    (retryWithBackoff succeedsOnThird 3).result = .ok 7
  ∧ (retryWithBackoff succeedsOnThird 3).calls = 3 :=
  (retry_policy succeedsOnThird 3).2.2 3 7 (by omega) (by omega)
    (fun i h1 h2 => ⟨⟨some 429, "Too Many Requests"⟩,
      by simp [succeedsOnThird, h2], rfl⟩)
    (by simp [succeedsOnThird])

/-- C6: every failure thrown inside the tool handler's body is caught and
converted into the structured error payload (an `error` field plus the
error's message in `details`), never propagated as an exception. -/
theorem lookup_converts_failures (ops : InventoryOps) (query : String)
    (n : Nat) (e : ProviderError) (h : lookupBody ops query n = .error e) :
    itemLookupTool ops query n =
      { error := some "Failde to seach inventory", message := none
        details := some e.msg, results := .absent, searchType := none
        query := some query, count := none }
  ∧ (itemLookupTool ops query n).error.isSome = true
  ∧ (itemLookupTool ops query n).details.isSome = true := by
  have h1 : itemLookupTool ops query n =
      { error := some "Failde to seach inventory", message := none
        details := some e.msg, results := .absent, searchType := none
        query := some query, count := none } := by
    simp [itemLookupTool, h]
  exact ⟨h1, by rw [h1]; rfl, by rw [h1]; rfl⟩

/-- C6 witness: a `countDocuments` network failure is converted to the
structured error payload. -/
theorem lookup_converts_failures_witness :
    itemLookupTool { demoOps with countFail := some ⟨none, "network down"⟩ }
      "sofa" 10 =
      { error := some "Failde to seach inventory", message := none
        details := some "network down", results := .absent, searchType := none
        query := some "sofa", count := none } :=
  (lookup_converts_failures
    { demoOps with countFail := some ⟨none, "network down"⟩ }
    "sofa" 10 ⟨none, "network down"⟩ rfl).1

/-- C7: with a model that always requests a tool call, the run with
`recursionLimit` 15 fails with the recursion (loop-exceeded) error after
executing exactly 15 super-steps, and no run ever executes more than 15. -/
theorem agent_loop_exceeded (model : List Msg → Msg) (ops : InventoryOps)
    (msgs : List Msg)
    (h : ∀ ms, ∃ c tcs, model ms = .ai c tcs ∧ tcs ≠ []) :
    (runGraph model ops 15 msgs).1 = .error .loopExceeded
  ∧ (runGraph model ops 15 msgs).2 = 15
  ∧ (∀ model2 msgs2, (runGraph model2 ops 15 msgs2).2 ≤ 15) := by
  have hrun := runGraphAux_always_tools model ops h 15 .agent msgs
  exact ⟨by simp [runGraph, hrun], by simp [runGraph, hrun],
    fun model2 msgs2 => runGraphAux_steps_le model2 ops 15 .agent msgs2⟩

/-- C7 witness: the concrete always-tool-calling model exhausts the
15-step budget and fails with the loop-exceeded error. -/
theorem agent_loop_exceeded_witness :
    (runGraph modelAlwaysTool demoOps 15 [.human "hi"]).1
      = .error .loopExceeded
  ∧ (runGraph modelAlwaysTool demoOps 15 [.human "hi"]).2 = 15 :=
  And.intro
    (agent_loop_exceeded modelAlwaysTool demoOps [.human "hi"]
      (fun ms => ⟨"", [⟨"blue sofas", 10⟩], rfl, by decide⟩)).1
    (agent_loop_exceeded modelAlwaysTool demoOps [.human "hi"]
      (fun ms => ⟨"", [⟨"blue sofas", 10⟩], rfl, by decide⟩)).2.1

/-- C8: a turn whose model call is rate-limited on all retry attempts fails
with the user-visible temporarily-unavailable message; a turn whose model
call fails with status 401 fails immediately (one invocation, no retry)
with the configuration-error message. -/
theorem turn_error_mapping {α : Type} (fn : Nat → Except ProviderError α) :
    ((∀ a, 1 ≤ a → a ≤ 3 → ∃ e, fn a = .error e ∧ e.status = some 429) →
       modelTurn fn = .error (.tempUnavailable
         "Service temporarily unavailable due to rate limits. Please try again later."))
  ∧ (∀ e, fn 1 = .error e → e.status = some 401 →
       modelTurn fn = .error (.authConfig
         "Authentication failed. Please check your API configuration.")
     ∧ (retryWithBackoff fn 3).calls = 1) := by
  constructor
  · intro h
    obtain ⟨e3, he3, hst3⟩ := h 3 (by omega) (by omega)
    have hrl3 : isRateLimit e3 = true := by simp [isRateLimit, hst3]
    have hfail : ∀ i, 1 ≤ i → i < 3 →
        (∃ ei, fn i = .error ei ∧ isRateLimit ei = true) ∧ i < 3 := by
      intro i h1 h2
      obtain ⟨e, he, hst⟩ := h i h1 (by omega)
      exact ⟨⟨e, he, by simp [isRateLimit, hst]⟩, h2⟩
    have hcond : ¬(isRateLimit e3 = true ∧ 3 < 3) :=
      fun hx => absurd hx.2 (by omega)
    have hrun := (retryAux_run fn 3 3 1 3 (by omega) (by omega) hfail).2
      e3 he3 hcond
    simp [modelTurn, retryWithBackoff, hrun, mapCallAgentError, hst3]
  · intro e he hst
    have hnr : isRateLimit e = false := by simp [isRateLimit, hst]
    have hcond : ¬(isRateLimit e = true ∧ 1 < 3) := by simp [hnr]
    have hfail : ∀ i, 1 ≤ i → i < 1 →
        (∃ ei, fn i = .error ei ∧ isRateLimit ei = true) ∧ i < 3 :=
      fun i h1 h2 => absurd h2 (by omega)
    have hrun := (retryAux_run fn 3 3 1 1 (by omega) (by omega) hfail).2
      e he hcond
    constructor
    · simp [modelTurn, retryWithBackoff, hrun, mapCallAgentError, hst]
    · simp [retryWithBackoff, hrun]

/-- C8 witness: the two mappings at concrete always-429 and always-401
thunks. -/
theorem turn_error_mapping_witness :
    modelTurn alwaysRateLimited = .error (.tempUnavailable
      "Service temporarily unavailable due to rate limits. Please try again later.")
  ∧ modelTurn alwaysAuthFailed = .error (.authConfig
      "Authentication failed. Please check your API configuration.")
  ∧ (retryWithBackoff alwaysAuthFailed 3).calls = 1 :=
  ⟨(turn_error_mapping alwaysRateLimited).1
     (fun a h1 h2 => ⟨⟨some 429, "Too Many Requests"⟩, rfl, rfl⟩),
   ((turn_error_mapping alwaysAuthFailed).2 ⟨some 401, "Unauthorized"⟩
     rfl rfl).1,
   ((turn_error_mapping alwaysAuthFailed).2 ⟨some 401, "Unauthorized"⟩
     rfl rfl).2⟩

/-- C9: within one turn, state updates only append messages at the tail:
the reducer is list concatenation, each node execution extends the list it
received, and any successful run's final message list extends the initial
one. -/
theorem messages_append_only (model : List Msg → Msg) (ops : InventoryOps) :
    (∀ x y, messagesReducer x y = x ++ y)
  ∧ (∀ msgs, ∃ t, agentStep model msgs = msgs ++ t)
  ∧ (∀ msgs, ∃ t, toolsStep ops msgs = msgs ++ t)
  ∧ (∀ limit msgs r, (runGraph model ops limit msgs).1 = .ok r →
       ∃ t, r = msgs ++ t) := by
  refine ⟨fun x y => rfl, fun msgs => ⟨[model msgs], rfl⟩,
    fun msgs => ⟨toolNodeOutputs ops msgs, rfl⟩, ?_⟩
  intro limit msgs r h
  exact runGraphAux_extends model ops limit .agent msgs r h

/-- C9 witness: a concrete successful run extends its initial message
list. -/
theorem messages_append_only_witness :
    ∃ t, [Msg.human "hi", Msg.ai "Hello! How can I help you?" []]
      = [Msg.human "hi"] ++ t :=
  (messages_append_only modelAnswers demoOps).2.2.2 15 [.human "hi"]
    [Msg.human "hi", Msg.ai "Hello! How can I help you?" []] rfl

/-- C10: the wrapper's outcome always originates from some invocation of
the operation (value returned or error thrown by it) — so the fall-through
`"Max retries exceeded"` error after the loop is unreachable — and a
rate-limit failure on the final attempt propagates the provider's original
error object. -/
theorem retry_result_from_operation {α : Type}
    (fn : Nat → Except ProviderError α) (m : Nat) (hm : 1 ≤ m) :
    (∃ j, 1 ≤ j ∧ j ≤ m ∧
       ((∃ v, fn j = .ok v ∧ (retryWithBackoff fn m).result = .ok v)
      ∨ (∃ e, fn j = .error e ∧ (retryWithBackoff fn m).result = .error e)))
  ∧ (∀ e, (∀ i, 1 ≤ i → i < m →
         ∃ ei, fn i = .error ei ∧ isRateLimit ei = true) →
       fn m = .error e → isRateLimit e = true →
       (retryWithBackoff fn m).result = .error e) := by
  constructor
  · exact retryAux_result_from fn m m 1 hm (by omega)
  · intro e hprior hme hre
    have hfail : ∀ i, 1 ≤ i → i < m →
        (∃ ei, fn i = .error ei ∧ isRateLimit ei = true) ∧ i < m :=
      fun i h1 h2 => ⟨hprior i h1 h2, h2⟩
    have hcond : ¬(isRateLimit e = true ∧ m < m) :=
      fun hx => absurd hx.2 (by omega)
    have hrun := (retryAux_run fn m m 1 m hm (by omega) hfail).2 e hme hcond
    simp [retryWithBackoff, hrun]

/-- C10 witness: at the concrete thunk succeeding on attempt 3 of 3, the
outcome originates from an invocation of the thunk. -/
theorem retry_result_from_operation_witness :
    ∃ j, 1 ≤ j ∧ j ≤ 3 ∧
      ((∃ v, succeedsOnThird j = .ok v
         ∧ (retryWithBackoff succeedsOnThird 3).result = .ok v)
     ∨ (∃ e, succeedsOnThird j = .error e
         ∧ (retryWithBackoff succeedsOnThird 3).result = .error e)) :=
  (retry_result_from_operation succeedsOnThird 3 (by omega)).1

end AIChat
